import Mathlib

/-!
Shallow embedding of the ChansClient voice-SDK connection manager
(TypeScript class ChansClient) and proofs about its connection state
machine, event emission, and listener registry.

The client owns one nullable room handle, a discrete connection state,
an audio element flag, and a listener table.  Methods are modelled as
pure state transformers that additionally return the list of events the
method emitted, in emission order.  The injected collaborators (the
fetch function, the room factory, the transport connect / microphone /
disconnect promises) are modelled as explicit environment values, and
the await points of the async methods are modelled as explicit
suspension points so that interleavings of overlapping calls and
asynchronously delivered room events can be analysed.
-/

namespace ChansSdk

/-- Connection states of the client (type ChansState in the source). -/
inductive ChansState
  | idle
  | connecting
  | waiting
  | ready
  | processing
  | speaking
  | error
deriving DecidableEq, Repr

/-- Events emitted by the client (ChansEventType plus payloads from
ChansEvents in the source).  Payloads irrelevant to the claims (the
remote track handle) are dropped; the sessionCreated payload keeps the
session id read from the parsed JSON body, which the source does not
validate, hence the Option. -/
inductive Event
  | stateChange (s : ChansState)
  | transcript (text : String)
  | response (text : String)
  | error (msg : String)
  | connected
  | disconnected
  | audioTrack
  | audioTrackEnded
  | agentConnected (identity : String) (metadata : Option String)
  | agentDisconnected
  | userTurnComplete (text : String)
  | sessionCreated (sessionId : Option String)
deriving DecidableEq, Repr

/-- Construction-time configuration relevant to the handlers:
the manualAudioHandling option and whether a DOM document exists
(the source tests typeof document before attaching audio). -/
structure Config where
  manualAudioHandling : Bool
  hasDocument : Bool
deriving DecidableEq, Repr

/-- Mutable fields of ChansClient relevant to the claims: the current
state, the nullable room handle (room objects are identified by a
number handed out by the room factory), and whether an audio element is
currently attached. -/
structure Client where
  state : ChansState
  room : Option Nat
  audioElement : Bool
deriving DecidableEq, Repr

/-- Freshly constructed client: state idle, no room, no audio element. -/
def Client.initial : Client := ⟨ChansState.idle, none, false⟩

/-- Source setState: assigns and emits a stateChange event only when the
new state differs from the current one. -/
def setState (c : Client) (newState : ChansState) : Client × List Event :=
  if c.state ≠ newState then
    ({ c with state := newState }, [Event.stateChange newState])
  else
    (c, [])

/-- Source cleanup: removes the audio element if present and drops the
room handle.  It never throws. -/
def cleanup (c : Client) : Client :=
  { c with audioElement := false, room := none }

/-- Decides whether the character list starting with the second argument
begins with the first argument. -/
def charStartsWith : List Char → List Char → Bool
  | [], _ => true
  | _ :: _, [] => false
  | a :: as, b :: bs => a = b && charStartsWith as bs

/-- Decides whether the first character list occurs contiguously inside
the second. -/
def charContains (needle : List Char) : List Char → Bool
  | [] => charStartsWith needle []
  | b :: bs => charStartsWith needle (b :: bs) || charContains needle bs

/-- JavaScript String.prototype.includes, used by the source as
identity.includes with the agent marker. -/
def jsIncludes (s pat : String) : Bool :=
  charContains pat.toList s.toList

/-- JavaScript String.prototype.trim over the character list: strips
leading and trailing whitespace.  The source only tests the trimmed
text for truthiness, i.e. non-emptiness. -/
def jsTrim (s : String) : String :=
  String.mk
    ((s.toList.dropWhile Char.isWhitespace).reverse.dropWhile Char.isWhitespace).reverse

/-- Source test participant?.identity.includes with the agent marker:
an absent participant is not an agent. -/
def isAgentParticipant : Option String → Bool
  | some identity => jsIncludes identity "agent"
  | none => false

/-- One transcription segment: its text and its final flag. -/
structure TranscriptionSegment where
  text : String
  final : Bool
deriving DecidableEq, Repr

/-- Room events the client registers handlers for inside connect.
Track payloads are reduced to the audio-kind test and the participant
identity, which is all the handlers inspect.  The transcription
participant is modelled by its identity, or none when the transport
delivers an undefined participant. -/
inductive RoomSignal
  | connected
  | disconnected
  | participantConnected (identity : String) (metadata : Option String)
  | participantDisconnected (identity : String)
  | trackSubscribed (isAudio : Bool) (identity : String)
  | trackUnsubscribed (isAudio : Bool)
  | transcriptionReceived (segments : List TranscriptionSegment)
      (participant : Option String)
deriving DecidableEq, Repr

/-- The seven room event handlers registered by connect, as one
transition function from a delivered signal to the updated client and
the events emitted while handling it, in emission order. -/
def handleSignal (cfg : Config) (c : Client) : RoomSignal → Client × List Event
  | RoomSignal.connected =>
      let (c1, e1) := setState c ChansState.waiting
      (c1, [Event.connected] ++ e1)
  | RoomSignal.disconnected =>
      let (c1, e1) := setState c ChansState.idle
      (cleanup c1, e1 ++ [Event.disconnected])
  | RoomSignal.participantConnected identity metadata =>
      if jsIncludes identity "agent" then
        let (c1, e1) := setState c ChansState.ready
        (c1, e1 ++ [Event.agentConnected identity metadata])
      else (c, [])
  | RoomSignal.participantDisconnected identity =>
      if jsIncludes identity "agent" then
        let (c1, e1) := setState c ChansState.waiting
        (c1, [Event.agentDisconnected] ++ e1)
      else (c, [])
  | RoomSignal.trackSubscribed isAudio identity =>
      if isAudio && jsIncludes identity "agent" then
        let (c1, e1) := setState c ChansState.speaking
        let c2 :=
          if !cfg.manualAudioHandling && cfg.hasDocument then
            { c1 with audioElement := true }
          else c1
        (c2, e1 ++ [Event.audioTrack])
      else (c, [])
  | RoomSignal.trackUnsubscribed isAudio =>
      if isAudio then
        let c1 := if c.audioElement then { c with audioElement := false } else c
        let (c2, e2) := setState c1 ChansState.ready
        (c2, [Event.audioTrackEnded] ++ e2)
      else (c, [])
  | RoomSignal.transcriptionReceived segments participant =>
      let text := String.intercalate " " (segments.map (fun s => s.text))
      let isFinal := segments.any (fun s => s.final)
      if isAgentParticipant participant then
        let (c1, e1) :=
          if c.state = ChansState.processing ∨ c.state = ChansState.ready then
            setState c ChansState.speaking
          else (c, [])
        let e2 := e1 ++ [Event.response text]
        if isFinal && (jsTrim text != "") then
          let (c2, e3) := setState c1 ChansState.ready
          (c2, e2 ++ e3)
        else (c1, e2)
      else
        let e1 := [Event.transcript text]
        if isFinal && (jsTrim text != "") then
          let (c1, e2) := setState c ChansState.processing
          (c1, e1 ++ e2 ++ [Event.userTurnComplete text])
        else (c, e1)

/-- Delivers a list of room signals in order, concatenating the emitted
events. -/
def handleSignals (cfg : Config) (c : Client) : List RoomSignal → Client × List Event
  | [] => (c, [])
  | sig :: rest =>
      let (c1, e1) := handleSignal cfg c sig
      let (c2, e2) := handleSignals cfg c1 rest
      (c2, e1 ++ e2)

/-- Fields the source reads out of the parsed JSON response body.  The
source casts the parsed body without validation, so every field may be
absent. -/
structure JsonValue where
  detail : Option String
  session_id : Option String
  connection_token : Option String
  connection_url : Option String
deriving DecidableEq, Repr

/-- An HTTP response as the source consumes it: the ok flag, the status
code, and the result of awaiting the json method, which either resolves
to a parsed body or rejects with an error message. -/
structure HttpResponse where
  ok : Bool
  status : Nat
  json : Except String JsonValue
deriving Repr

/-- Behaviour of the injected collaborators during one connect call: the
outcome of the fetch promise, of the transport connect promise, and of
the microphone enable promise.  A rejected promise carries the message
of the thrown error. -/
structure ConnectEnv where
  fetchResult : Except String HttpResponse
  roomConnectResult : Except String Unit
  micResult : Except String Unit
deriving Repr

/-- Message of the usage error thrown when connect is called while a
room handle is owned. -/
def alreadyConnectedMsg : String := "Already connected. Call disconnect() first."

/-- Generic fallback message naming the HTTP status. -/
def failedToCreateMsg (status : Nat) : String :=
  "Failed to create session: " ++ toString status

/-- JavaScript or-else on the optional detail field: an absent detail or
an empty (falsy) detail string selects the fallback. -/
def jsStringOr (v : Option String) (fallback : String) : String :=
  match v with
  | some s => if s = "" then fallback else s
  | none => fallback

/-- Detail field read from the awaited json promise of a non-success
response: a rejected parse is caught and yields the empty object, whose
detail field is absent. -/
def bodyDetail : Except String JsonValue → Option String
  | Except.ok j => j.detail
  | Except.error _ => none

/-- Source catch block of connect, minus the rethrow: set state to
error, emit the error event with the message of the caught error, run
cleanup. -/
def connectCatch (c : Client) (msg : String) : Client × List Event :=
  let (c1, e1) := setState c ChansState.error
  (cleanup c1, e1 ++ [Event.error msg])

/-- Suspension points of connect.  The source awaits the fetch call
(the json await is folded into the fetch resume, since no handler can
observe the gap before the room exists), the transport connect call,
and the microphone enable call. -/
inductive ConnectPhase
  | atFetch
  | atRoomConnect
  | atMic
deriving DecidableEq, Repr

/-- Resume connect at the fetch await: either the catch path runs and
the call finishes with some error message, or the session body was read
successfully, the sessionCreated event is emitted, the room factory is
invoked (the returned list records the created room), the room handle
is assigned and the handlers are registered, and the call suspends at
the transport connect await. -/
def resumeFetch (c : Client) (env : ConnectEnv) (rid : Nat) :
    Client × List Event × List Nat × Option String :=
  match env.fetchResult with
  | Except.error msg =>
      let (c1, e1) := connectCatch c msg
      (c1, e1, [], some msg)
  | Except.ok res =>
      if res.ok = false then
        let msg := jsStringOr (bodyDetail res.json) (failedToCreateMsg res.status)
        let (c1, e1) := connectCatch c msg
        (c1, e1, [], some msg)
      else
        match res.json with
        | Except.error msg =>
            let (c1, e1) := connectCatch c msg
            (c1, e1, [], some msg)
        | Except.ok j =>
            ({ c with room := some rid },
             [Event.sessionCreated j.session_id], [rid], none)

/-- Resume connect at the transport connect await: a rejection runs the
catch path, a resolution suspends at the microphone await. -/
def resumeRoomConnect (c : Client) (env : ConnectEnv) :
    Client × List Event × Option String :=
  match env.roomConnectResult with
  | Except.error msg =>
      let (c1, e1) := connectCatch c msg
      (c1, e1, some msg)
  | Except.ok _ => (c, [], none)

/-- Resume connect at the microphone enable await: a rejection runs the
catch path, a resolution completes the call successfully. -/
def resumeMic (c : Client) (env : ConnectEnv) :
    Client × List Event × Option String :=
  match env.micResult with
  | Except.error msg =>
      let (c1, e1) := connectCatch c msg
      (c1, e1, some msg)
  | Except.ok _ => (c, [], none)

/-- Outcome of running one segment of connect: either the call suspends
at the next await, or it finishes with a resolution or a rejection. -/
inductive StepOut
  | suspended (p : ConnectPhase)
  | done (r : Except String Unit)
deriving Repr

/-- Synchronous prefix of connect, up to the first await: the guard
throws the already-connected usage error while a room handle is owned
(note this throw happens before the try block, so no error event is
emitted), otherwise state is set to connecting and the call suspends at
the fetch await. -/
def connectStart (c : Client) : Client × List Event × StepOut :=
  match c.room with
  | some _ => (c, [], StepOut.done (Except.error alreadyConnectedMsg))
  | none =>
      let (c1, e1) := setState c ChansState.connecting
      (c1, e1, StepOut.suspended ConnectPhase.atFetch)

/-- One resumption of a suspended connect call, as a uniform step for
the interleaving scheduler. -/
def connectStep (c : Client) (env : ConnectEnv) (rid : Nat) :
    ConnectPhase → Client × List Event × List Nat × StepOut
  | ConnectPhase.atFetch =>
      match resumeFetch c env rid with
      | (c1, e1, rooms, some msg) => (c1, e1, rooms, StepOut.done (Except.error msg))
      | (c1, e1, rooms, none) => (c1, e1, rooms, StepOut.suspended ConnectPhase.atRoomConnect)
  | ConnectPhase.atRoomConnect =>
      match resumeRoomConnect c env with
      | (c1, e1, some msg) => (c1, e1, [], StepOut.done (Except.error msg))
      | (c1, e1, none) => (c1, e1, [], StepOut.suspended ConnectPhase.atMic)
  | ConnectPhase.atMic =>
      match resumeMic c env with
      | (c1, e1, some msg) => (c1, e1, [], StepOut.done (Except.error msg))
      | (c1, e1, none) => (c1, e1, [], StepOut.done (Except.ok ()))

/-- Everything one whole connect call produces: the final client, the
full event trace in emission order, the rooms created through the room
factory, and the resolution or rejection of the returned promise. -/
structure ConnectResult where
  client : Client
  trace : List Event
  createdRooms : List Nat
  result : Except String Unit
deriving Repr

/-- One whole connect call with no overlapping client calls: the room
may deliver signals to the registered handlers while the call is
suspended at the transport connect await and at the microphone await
(handlers exist only from room creation onwards, so no signals can
arrive earlier). -/
def connectWithSignals (cfg : Config) (c : Client) (env : ConnectEnv) (rid : Nat)
    (sigsDuringRoomConnect sigsDuringMic : List RoomSignal) : ConnectResult :=
  match connectStart c with
  | (c0, e0, StepOut.done r) => ⟨c0, e0, [], r⟩
  | (c0, e0, StepOut.suspended _) =>
      match resumeFetch c0 env rid with
      | (c1, e1, rooms, some msg) => ⟨c1, e0 ++ e1, rooms, Except.error msg⟩
      | (c1, e1, rooms, none) =>
          let (c2, e2) := handleSignals cfg c1 sigsDuringRoomConnect
          match resumeRoomConnect c2 env with
          | (c3, e3, some msg) =>
              ⟨c3, e0 ++ e1 ++ e2 ++ e3, rooms, Except.error msg⟩
          | (c3, e3, none) =>
              let (c4, e4) := handleSignals cfg c3 sigsDuringMic
              match resumeMic c4 env with
              | (c5, e5, some msg) =>
                  ⟨c5, e0 ++ e1 ++ e2 ++ e3 ++ e4 ++ e5, rooms, Except.error msg⟩
              | (c5, e5, none) =>
                  ⟨c5, e0 ++ e1 ++ e2 ++ e3 ++ e4 ++ e5, rooms, Except.ok ()⟩

/-- Source disconnect: when a room handle is owned the transport
disconnect is awaited (room signals may be delivered during that await,
and the promise may reject, in which case the rejection propagates
before cleanup runs); afterwards cleanup runs and state is forced to
idle. -/
def disconnect (cfg : Config) (c : Client) (sigsDuringAwait : List RoomSignal)
    (roomDisconnectResult : Except String Unit) :
    Client × List Event × Except String Unit :=
  if c.room.isSome then
    let (c1, e1) := handleSignals cfg c sigsDuringAwait
    match roomDisconnectResult with
    | Except.error msg => (c1, e1, Except.error msg)
    | Except.ok _ =>
        let c2 := cleanup c1
        let (c3, e3) := setState c2 ChansState.idle
        (c3, e1 ++ e3, Except.ok ())
  else
    let c2 := cleanup c
    let (c3, e3) := setState c2 ChansState.idle
    (c3, e3, Except.ok ())

/-- Driver iterating setState over a list of requested states, modelling
an arbitrary sequence of setState invocations. -/
def runSetStates (c : Client) : List ChansState → Client × List Event
  | [] => (c, [])
  | s :: rest =>
      let (c1, e1) := setState c s
      let (c2, e2) := runSetStates c1 rest
      (c2, e1 ++ e2)

/-- States of a requested sequence that differ from the running current
state: exactly the transitions that actually change the state, in
order. -/
def distinctTransitions (cur : ChansState) : List ChansState → List ChansState
  | [] => []
  | s :: rest =>
      if s = cur then distinctTransitions cur rest
      else s :: distinctTransitions s rest

/-- Messages carried by the error events of a trace, in order. -/
def errorEvents : List Event → List String
  | [] => []
  | Event.error m :: rest => m :: errorEvents rest
  | _ :: rest => errorEvents rest

/-- Status of one connect call under the interleaving scheduler: still
suspended at an await with its environment and its room id, or finished
with its resolution or rejection. -/
inductive CallState
  | running (env : ConnectEnv) (rid : Nat) (phase : ConnectPhase)
  | finished (r : Except String Unit)
deriving Repr

/-- Global state of an interleaved execution: the shared client
instance, the accumulated event trace, the rooms created so far through
the room factory, and the connect calls issued so far, in call order. -/
structure RunState where
  client : Client
  trace : List Event
  createdRooms : List Nat
  calls : List CallState
deriving Repr

/-- One scheduler action of the cooperative event loop: invoke connect
(running its synchronous prefix up to the first await), resume the
given call at its pending await, or let the room deliver a signal to
the registered handlers. -/
inductive RunOp
  | callConnect (env : ConnectEnv) (rid : Nat)
  | resume (i : Nat)
  | fire (sig : RoomSignal)
deriving Repr

/-- Executes one scheduler action.  Every action is one synchronous
segment of JavaScript, exactly the atomicity the single-threaded event
loop guarantees between awaits. -/
def runOp (cfg : Config) (st : RunState) : RunOp → RunState
  | RunOp.callConnect env rid =>
      match connectStart st.client with
      | (c1, e1, StepOut.done r) =>
          { st with client := c1, trace := st.trace ++ e1,
                    calls := st.calls ++ [CallState.finished r] }
      | (c1, e1, StepOut.suspended p) =>
          { st with client := c1, trace := st.trace ++ e1,
                    calls := st.calls ++ [CallState.running env rid p] }
  | RunOp.resume i =>
      match st.calls.get? i with
      | some (CallState.running env rid p) =>
          match connectStep st.client env rid p with
          | (c1, e1, rooms, out) =>
              let cs :=
                match out with
                | StepOut.done r => CallState.finished r
                | StepOut.suspended p2 => CallState.running env rid p2
              { st with client := c1, trace := st.trace ++ e1,
                        createdRooms := st.createdRooms ++ rooms,
                        calls := st.calls.set i cs }
      | _ => st
  | RunOp.fire sig =>
      match handleSignal cfg st.client sig with
      | (c1, e1) => { st with client := c1, trace := st.trace ++ e1 }

/-- Executes a schedule of actions from an initial global state. -/
def runOps (cfg : Config) (st : RunState) : List RunOp → RunState
  | [] => st
  | op :: rest => runOps cfg (runOp cfg st op) rest

/-- Fresh global state: one freshly constructed client, nothing emitted,
no rooms created, no calls issued. -/
def RunState.initial : RunState := ⟨Client.initial, [], [], []⟩

/-- Example configuration: manual audio handling, no DOM document. -/
def cfgManual : Config := ⟨true, false⟩

/-- Example environment in which every injected collaborator succeeds:
the handshake returns a parsable session body, the transport connect
resolves, and the microphone enable resolves. -/
def envAllOk : ConnectEnv :=
  ⟨Except.ok ⟨true, 200, Except.ok ⟨none, some "ses_abc", some "tok", some "wss://x"⟩⟩,
   Except.ok (), Except.ok ()⟩

/-- Example environment in which the handshake returns HTTP 401 with a
parsable body carrying a detail message; the remaining collaborators
would succeed. -/
def envHttp401 : ConnectEnv :=
  ⟨Except.ok ⟨false, 401, Except.ok ⟨some "Invalid agent token", none, none, none⟩⟩,
   Except.ok (), Except.ok ()⟩

/-- Schedule in which a second connect call is issued while the first
is suspended at the handshake fetch await, and both calls then run to
completion in alternation.  This is a legal schedule of the
single-threaded event loop: a caller may invoke connect again while the
first call awaits its fetch. -/
def overlapSchedule : List RunOp :=
  [RunOp.callConnect envAllOk 1, RunOp.callConnect envAllOk 2,
   RunOp.resume 0, RunOp.resume 1, RunOp.resume 0, RunOp.resume 1,
   RunOp.resume 0, RunOp.resume 1]

/-- Global state after both overlapping connect calls entered and both
resumed their fetch awaits: both calls hold a live room. -/
def overlapRunMid : RunState :=
  runOps cfgManual RunState.initial (overlapSchedule.take 4)

/-- Global state after the overlapping schedule has run to completion. -/
def overlapRun : RunState :=
  runOps cfgManual RunState.initial overlapSchedule

/-- Registration of a callback in the listener set of one event name,
modelling Set.add on the JS Set: already registered callbacks keep
their original position, otherwise the callback is appended.  Callbacks
are identified by numbers and the set is its insertion-ordered element
list. -/
def onListener (reg : List Nat) (cb : Nat) : List Nat :=
  if cb ∈ reg then reg else reg ++ [cb]

/-- Removal of a callback, modelling Set.delete on the JS Set: both the
token closure returned by the subscribe method and the unsubscribe
method perform exactly this deletion. -/
def offListener (reg : List Nat) (cb : Nat) : List Nat :=
  reg.filter (fun x => decide (x ≠ cb))

/-- Iteration core of the emit method, modelling Set.prototype.forEach
under concurrent deletions performed by the invoked callbacks: the
behaviour function gives the callbacks each invoked callback
unsubscribes during its own invocation.  An element deleted before the
iterator reaches it is not visited; deleting an already visited element
only affects the surviving set.  Returns the invocation order and the
accumulated set of deleted callbacks. -/
def forEachGo (beh : Nat → List Nat) :
    List Nat → List Nat → List Nat → List Nat × List Nat
  | removed, invoked, [] => (invoked.reverse, removed)
  | removed, invoked, h :: rest =>
      if h ∈ removed then forEachGo beh removed invoked rest
      else forEachGo beh (beh h ++ removed) (h :: invoked) rest

/-- One emit dispatch pass over a listener set: the callbacks invoked,
in order, and the listener set as it stands after the pass (the
original insertion order minus every deleted callback). -/
def emitRun (reg : List Nat) (beh : Nat → List Nat) : List Nat × List Nat :=
  let r := forEachGo beh [] [] reg
  (r.1, reg.filter (fun x => decide (x ∉ r.2)))

/-- Full characterisation of the transcription handler: the updated
client and the emitted trace, for both participant attributions. -/
theorem handleSignal_transcription (cfg : Config) (c : Client)
    (segments : List TranscriptionSegment) (participant : Option String) :
    handleSignal cfg c (RoomSignal.transcriptionReceived segments participant) =
      (let text := String.intercalate " " (segments.map (fun s => s.text))
       let fin := segments.any (fun s => s.final)
       if isAgentParticipant participant then
         (⟨(if fin && (jsTrim text != "") then ChansState.ready
            else if c.state = ChansState.processing ∨ c.state = ChansState.ready then
              ChansState.speaking
            else c.state), c.room, c.audioElement⟩,
          (if c.state = ChansState.processing ∨ c.state = ChansState.ready then
             [Event.stateChange ChansState.speaking] else [])
            ++ [Event.response text]
            ++ (if fin && (jsTrim text != "") then
                  [Event.stateChange ChansState.ready] else []))
       else
         (⟨(if fin && (jsTrim text != "") then ChansState.processing else c.state),
           c.room, c.audioElement⟩,
          [Event.transcript text]
            ++ (if fin && (jsTrim text != "") then
                  (if c.state = ChansState.processing then []
                   else [Event.stateChange ChansState.processing])
                    ++ [Event.userTurnComplete text]
                else []))) := by
  obtain ⟨cs, cr, ca⟩ := c
  cases hA : isAgentParticipant participant with
  | true =>
      by_cases hFin :
          (segments.any (fun s => s.final)
            && (jsTrim (String.intercalate " " (segments.map (fun s => s.text))) != "")) = true
      all_goals by_cases hP : cs = ChansState.processing
      all_goals by_cases hR : cs = ChansState.ready
      all_goals simp_all [handleSignal, setState]
      all_goals (split <;> simp_all)
  | false =>
      by_cases hFin :
          (segments.any (fun s => s.final)
            && (jsTrim (String.intercalate " " (segments.map (fun s => s.text))) != "")) = true
      all_goals by_cases hP : cs = ChansState.processing
      all_goals simp_all [handleSignal, setState]
      all_goals (split <;> simp_all)

/-- State reached by setState is always the requested one: either it was
assigned, or it already was the current state. -/
theorem setState_state (c : Client) (s : ChansState) :
    ((setState c s).1).state = s := by
  unfold setState
  split
  · rfl
  · next h => simpa using h

/-- Cleanup followed by forcing idle always yields the freshly
constructed client value, whatever the prior fields were. -/
theorem setState_cleanup_idle (c : Client) :
    (setState (cleanup c) ChansState.idle).1 = Client.initial := by
  obtain ⟨s, r, a⟩ := c
  by_cases h : s = ChansState.idle <;>
    simp [setState, cleanup, Client.initial, h]

/-- C6: over every sequence of setState invocations, the stateChange
event fires exactly once for every invocation whose requested state
differs from the running current state, in order, and never fires for
an invocation whose requested state equals the current state. -/
theorem stateChange_fires_exactly_on_distinct_transitions
    (c : Client) (l : List ChansState) :
    (runSetStates c l).2 = (distinctTransitions c.state l).map Event.stateChange := by
  induction l generalizing c with
  | nil => rfl
  | cons s rest ih =>
      by_cases h : s = c.state
      · simp [runSetStates, setState, distinctTransitions, h, ih]
      · have h2 : ¬c.state = s := fun hh => h hh.symm
        simp [runSetStates, setState, distinctTransitions, h, h2, ih]

/-- C5: disconnect, with the transport disconnect promise resolving,
always terminates with the freshly constructed client value (state
idle, room handle absent, playback sink released) and resolves, from
every prior client state and under every list of room signals delivered
during the transport disconnect await; a second disconnect on the
result is a no-op that emits nothing and resolves again. -/
theorem disconnect_forces_idle_and_is_idempotent
    (cfg : Config) (c : Client) (sigs : List RoomSignal) :
    (disconnect cfg c sigs (Except.ok ())).1 = Client.initial
    ∧ (disconnect cfg c sigs (Except.ok ())).2.2 = Except.ok ()
    ∧ disconnect cfg Client.initial [] (Except.ok ())
        = (Client.initial, [], Except.ok ()) := by
  refine ⟨?_, ?_, ?_⟩
  · by_cases h : c.room.isSome <;>
      simp [disconnect, h, setState_cleanup_idle]
  · by_cases h : c.room.isSome <;>
      simp [disconnect, h]
  · simp [disconnect, Client.initial, cleanup, setState]

/-- C4: a connect call made while a room handle is owned rejects with
the already-connected error, leaves the client completely unchanged,
emits no event, and creates no room, for every prior state, every
environment (hence no HTTP call is observable), and every signal
delivery. -/
theorem connect_with_room_present_rejects_unchanged
    (cfg : Config) (c : Client) (env : ConnectEnv) (rid : Nat)
    (s1 s2 : List RoomSignal) (r : Nat) (h : c.room = some r) :
    connectWithSignals cfg c env rid s1 s2
      = ⟨c, [], [], Except.error alreadyConnectedMsg⟩ := by
  simp [connectWithSignals, connectStart, h]

/-- Witness for the already-connected rejection at a concrete client. -/
theorem connect_with_room_present_rejects_unchanged_witness :
    connectWithSignals cfgManual ⟨ChansState.waiting, some 3, false⟩ envAllOk 7 [] []
      = ⟨⟨ChansState.waiting, some 3, false⟩, [], [], Except.error alreadyConnectedMsg⟩ :=
  connect_with_room_present_rejects_unchanged cfgManual
    ⟨ChansState.waiting, some 3, false⟩ envAllOk 7 [] [] 3 rfl

/-- C1 counterexample: the already-connected usage error rejects the
connect call but emits no event at all, in particular no error event,
so this failure reaches the caller while every other subscriber
observes nothing. -/
theorem connect_usage_error_emits_no_error_event :
    (connectWithSignals cfgManual ⟨ChansState.ready, some 0, false⟩ envAllOk 1 [] []).result
        = Except.error alreadyConnectedMsg
    ∧ (connectWithSignals cfgManual ⟨ChansState.ready, some 0, false⟩ envAllOk 1 [] []).trace
        = [] :=
  ⟨rfl, rfl⟩

/-- C9 counterexample: with an injected room whose connect promise
resolves without ever firing the room-connected event (exactly the
behaviour of the MockRoom shipped with the repository, which fires it
on a later timer tick), connect resolves successfully while the state
is still connecting. -/
theorem connect_can_resolve_while_still_connecting :
    (connectWithSignals cfgManual Client.initial envAllOk 1 [] []).result = Except.ok ()
    ∧ (connectWithSignals cfgManual Client.initial envAllOk 1 [] []).client.state
        = ChansState.connecting :=
  ⟨rfl, rfl⟩

/-- C2: a second connect call issued while the first is suspended at the
handshake fetch await passes the room-handle guard instead of failing
fast: after both calls resume their fetch, two rooms have been created
and both calls hold one (the client field retains only the second), and
both calls then run to successful completion, so the overlapping call
is never rejected with the already-connected error. -/
theorem overlapping_connect_creates_second_room :
    overlapRunMid.calls
        = [CallState.running envAllOk 1 ConnectPhase.atRoomConnect,
           CallState.running envAllOk 2 ConnectPhase.atRoomConnect]
    ∧ overlapRunMid.createdRooms = [1, 2]
    ∧ overlapRunMid.client.room = some 2
    ∧ overlapRun.calls
        = [CallState.finished (Except.ok ()), CallState.finished (Except.ok ())]
    ∧ overlapRun.createdRooms = [1, 2]
    ∧ overlapRun.client.room = some 2 :=
  ⟨rfl, rfl, rfl, rfl, rfl, rfl⟩

/-- Error extraction distributes over trace concatenation. -/
theorem errorEvents_append (a b : List Event) :
    errorEvents (a ++ b) = errorEvents a ++ errorEvents b := by
  induction a with
  | nil => rfl
  | cons e rest ih => cases e <;> simp [errorEvents, ih]

/-- A setState invocation never emits an error event. -/
theorem errorEvents_setState (c : Client) (s : ChansState) :
    errorEvents (setState c s).2 = [] := by
  unfold setState
  split <;> rfl

/-- No room event handler ever emits an error event. -/
theorem errorEvents_handleSignal (cfg : Config) (c : Client) (sig : RoomSignal) :
    errorEvents (handleSignal cfg c sig).2 = [] := by
  cases sig with
  | connected =>
      show errorEvents ([Event.connected] ++ (setState c ChansState.waiting).2) = []
      rw [errorEvents_append, errorEvents_setState]
      rfl
  | disconnected =>
      show errorEvents ((setState c ChansState.idle).2 ++ [Event.disconnected]) = []
      rw [errorEvents_append, errorEvents_setState]
      rfl
  | participantConnected identity metadata =>
      by_cases h : jsIncludes identity "agent"
      · have : handleSignal cfg c (RoomSignal.participantConnected identity metadata)
            = ((setState c ChansState.ready).1,
               (setState c ChansState.ready).2 ++ [Event.agentConnected identity metadata]) := by
          simp [handleSignal, h]
        rw [this, errorEvents_append, errorEvents_setState]
        rfl
      · have : handleSignal cfg c (RoomSignal.participantConnected identity metadata)
            = (c, []) := by simp [handleSignal, h]
        rw [this]
        rfl
  | participantDisconnected identity =>
      by_cases h : jsIncludes identity "agent"
      · have : handleSignal cfg c (RoomSignal.participantDisconnected identity)
            = ((setState c ChansState.waiting).1,
               [Event.agentDisconnected] ++ (setState c ChansState.waiting).2) := by
          simp [handleSignal, h]
        rw [this, errorEvents_append, errorEvents_setState]
        rfl
      · have : handleSignal cfg c (RoomSignal.participantDisconnected identity)
            = (c, []) := by simp [handleSignal, h]
        rw [this]
        rfl
  | trackSubscribed isAudio identity =>
      by_cases h : (isAudio && jsIncludes identity "agent") = true
      · have : (handleSignal cfg c (RoomSignal.trackSubscribed isAudio identity)).2
            = (setState c ChansState.speaking).2 ++ [Event.audioTrack] := by
          simp [handleSignal, h]
        rw [this, errorEvents_append, errorEvents_setState]
        rfl
      · have : handleSignal cfg c (RoomSignal.trackSubscribed isAudio identity)
            = (c, []) := by simp [handleSignal, h]
        rw [this]
        rfl
  | trackUnsubscribed isAudio =>
      by_cases h : isAudio = true
      · have : (handleSignal cfg c (RoomSignal.trackUnsubscribed isAudio)).2
            = [Event.audioTrackEnded]
                ++ (setState (if c.audioElement then { c with audioElement := false } else c)
                      ChansState.ready).2 := by
          simp [handleSignal, h]
        rw [this, errorEvents_append, errorEvents_setState]
        rfl
      · have : handleSignal cfg c (RoomSignal.trackUnsubscribed isAudio)
            = (c, []) := by simp [handleSignal, h]
        rw [this]
        rfl
  | transcriptionReceived segments participant =>
      rw [handleSignal_transcription]
      by_cases hA : isAgentParticipant participant
      · rw [if_pos hA]
        split <;> (try split) <;> rfl
      · rw [if_neg hA]
        split <;> (try split) <;> rfl

/-- Delivering any list of room signals emits no error event. -/
theorem errorEvents_handleSignals (cfg : Config) (c : Client) (sigs : List RoomSignal) :
    errorEvents (handleSignals cfg c sigs).2 = [] := by
  induction sigs generalizing c with
  | nil => rfl
  | cons sig rest ih =>
      show errorEvents ((handleSignal cfg c sig).2
        ++ (handleSignals cfg (handleSignal cfg c sig).1 rest).2) = []
      rw [errorEvents_append, errorEvents_handleSignal, ih]
      rfl

/-- The catch block emits exactly one error event, carrying the caught
message. -/
theorem errorEvents_connectCatch (c : Client) (msg : String) :
    errorEvents (connectCatch c msg).2 = [msg] := by
  show errorEvents ((setState c ChansState.error).2 ++ [Event.error msg]) = [msg]
  rw [errorEvents_append, errorEvents_setState]
  rfl

/-- Resuming the fetch await either runs the catch block with some
message, or assigns the room handle, reports the created room, emits
the sessionCreated event and proceeds. -/
theorem resumeFetch_cases (c : Client) (env : ConnectEnv) (rid : Nat) :
    (∃ msg, resumeFetch c env rid
        = ((connectCatch c msg).1, (connectCatch c msg).2, [], some msg))
    ∨ (∃ sid, resumeFetch c env rid
        = ((⟨c.state, some rid, c.audioElement⟩ : Client),
           [Event.sessionCreated sid], [rid], none)) := by
  unfold resumeFetch
  cases hf : env.fetchResult with
  | error msg => exact Or.inl ⟨msg, rfl⟩
  | ok res =>
      by_cases hok : res.ok = false
      · exact Or.inl ⟨jsStringOr (bodyDetail res.json) (failedToCreateMsg res.status),
          by simp only [hok, if_true]⟩
      · cases hj : res.json with
        | error m => exact Or.inl ⟨m, by simp [hok, hj]⟩
        | ok j => exact Or.inr ⟨j.session_id, by simp [hok, hj]⟩

/-- Resuming the fetch await when the response has a non-success status
always runs the catch block with the detail-or-fallback message. -/
theorem resumeFetch_http_error (c : Client) (env : ConnectEnv) (rid : Nat)
    (res : HttpResponse) (hf : env.fetchResult = Except.ok res) (hok : res.ok = false) :
    resumeFetch c env rid
      = ((connectCatch c (jsStringOr (bodyDetail res.json) (failedToCreateMsg res.status))).1,
         (connectCatch c (jsStringOr (bodyDetail res.json) (failedToCreateMsg res.status))).2,
         [], some (jsStringOr (bodyDetail res.json) (failedToCreateMsg res.status))) := by
  unfold resumeFetch
  cases hfr : env.fetchResult with
  | error m => rw [hfr] at hf; exact absurd hf (fun hh => Except.noConfusion hh)
  | ok res2 =>
      rw [hfr] at hf
      injection hf with hres
      subst hres
      simp only [hok, if_true]

/-- Resuming the transport connect await either runs the catch block or
proceeds without touching the client or emitting anything. -/
theorem resumeRoomConnect_cases (c : Client) (env : ConnectEnv) :
    (∃ msg, resumeRoomConnect c env
        = ((connectCatch c msg).1, (connectCatch c msg).2, some msg))
    ∨ resumeRoomConnect c env = (c, [], none) := by
  unfold resumeRoomConnect
  cases hr : env.roomConnectResult with
  | error msg => exact Or.inl ⟨msg, rfl⟩
  | ok u => exact Or.inr rfl

/-- Resuming the microphone await either runs the catch block or
completes without touching the client or emitting anything. -/
theorem resumeMic_cases (c : Client) (env : ConnectEnv) :
    (∃ msg, resumeMic c env
        = ((connectCatch c msg).1, (connectCatch c msg).2, some msg))
    ∨ resumeMic c env = (c, [], none) := by
  unfold resumeMic
  cases hm : env.micResult with
  | error msg => exact Or.inl ⟨msg, rfl⟩
  | ok u => exact Or.inr rfl

/-- With no room handle owned, connectStart sets state connecting and
suspends at the fetch await. -/
theorem connectStart_none (c : Client) (h : c.room = none) :
    connectStart c
      = ((setState c ChansState.connecting).1, (setState c ChansState.connecting).2,
         StepOut.suspended ConnectPhase.atFetch) := by
  simp [connectStart, h]

/-- C1 (amended): every failure inside the try block of connect, over
every environment and signal delivery, both rejects the call and emits
exactly one error event carrying the rejected message, and a
resolution emits no error event; the already-connected usage error,
thrown before the try block, rejects the call while emitting no event
at all. -/
theorem connect_rejection_and_error_event_agree
    (cfg : Config) (c : Client) (env : ConnectEnv) (rid : Nat) (s1 s2 : List RoomSignal) :
    (c.room = none →
      ((∃ msg, (connectWithSignals cfg c env rid s1 s2).result = Except.error msg
          ∧ errorEvents (connectWithSignals cfg c env rid s1 s2).trace = [msg])
        ∨ ((connectWithSignals cfg c env rid s1 s2).result = Except.ok ()
          ∧ errorEvents (connectWithSignals cfg c env rid s1 s2).trace = [])))
    ∧ (∀ r, c.room = some r →
        (connectWithSignals cfg c env rid s1 s2).result = Except.error alreadyConnectedMsg
        ∧ (connectWithSignals cfg c env rid s1 s2).trace = []) := by
  constructor
  · intro h
    rcases resumeFetch_cases (setState c ChansState.connecting).1 env rid with
      ⟨msg, hf⟩ | ⟨sid, hf⟩
    · refine Or.inl ⟨msg, ?_, ?_⟩
      · simp only [connectWithSignals, connectStart_none c h, hf]
      · simp only [connectWithSignals, connectStart_none c h, hf]
        rw [errorEvents_append, errorEvents_setState, errorEvents_connectCatch]
        rfl
    · rcases resumeRoomConnect_cases
          (handleSignals cfg
            (⟨(setState c ChansState.connecting).1.state, some rid,
              (setState c ChansState.connecting).1.audioElement⟩ : Client) s1).1
          env with ⟨msg, hr⟩ | hr
      · refine Or.inl ⟨msg, ?_, ?_⟩
        · simp only [connectWithSignals, connectStart_none c h, hf, hr]
        · simp only [connectWithSignals, connectStart_none c h, hf, hr]
          rw [errorEvents_append, errorEvents_append, errorEvents_append,
            errorEvents_setState, errorEvents_handleSignals, errorEvents_connectCatch]
          rfl
      · rcases resumeMic_cases
            (handleSignals cfg
              (handleSignals cfg
                (⟨(setState c ChansState.connecting).1.state, some rid,
                  (setState c ChansState.connecting).1.audioElement⟩ : Client) s1).1 s2).1
            env with ⟨msg, hm⟩ | hm
        · refine Or.inl ⟨msg, ?_, ?_⟩
          · simp only [connectWithSignals, connectStart_none c h, hf, hr, hm]
          · simp only [connectWithSignals, connectStart_none c h, hf, hr, hm]
            rw [errorEvents_append, errorEvents_append, errorEvents_append,
              errorEvents_append, errorEvents_append,
              errorEvents_setState, errorEvents_handleSignals, errorEvents_handleSignals,
              errorEvents_connectCatch]
            rfl
        · refine Or.inr ⟨?_, ?_⟩
          · simp only [connectWithSignals, connectStart_none c h, hf, hr, hm]
          · simp only [connectWithSignals, connectStart_none c h, hf, hr, hm]
            rw [errorEvents_append, errorEvents_append, errorEvents_append,
              errorEvents_append, errorEvents_append,
              errorEvents_setState, errorEvents_handleSignals, errorEvents_handleSignals]
            rfl
  · intro r h
    simp [connectWithSignals, connectStart, h]

/-- Witness for the error-channel agreement: in the all-success
environment the call resolves and the trace carries no error event. -/
theorem connect_rejection_and_error_event_agree_witness :
    errorEvents (connectWithSignals cfgManual Client.initial envAllOk 2 [] []).trace = [] := by
  rcases (connect_rejection_and_error_event_agree cfgManual Client.initial envAllOk 2 [] []).1
      rfl with ⟨msg, hres, _⟩ | ⟨_, htr⟩
  · rw [show (connectWithSignals cfgManual Client.initial envAllOk 2 [] []).result
        = Except.ok () from rfl] at hres
    exact Except.noConfusion hres
  · exact htr

/-- A setState invocation whose requested state differs from the
current one emits exactly the one stateChange event. -/
theorem setState_emits (c : Client) (s : ChansState) (h : ¬c.state = s) :
    (setState c s).2 = [Event.stateChange s] := by
  simp [setState, h]

/-- C3: when the session-issuance response has a non-success status,
connect rejects with an error message that is the server-supplied
detail when present and non-empty, and otherwise the generic fallback
naming the HTTP status (also when the body is unparsable); it ends in
the error state with the room handle absent, emits exactly one error
event carrying that message, emits the stateChange event into the
error state, and never invokes the room factory. -/
theorem connect_http_failure_behavior
    (cfg : Config) (c : Client) (env : ConnectEnv) (rid : Nat) (s1 s2 : List RoomSignal)
    (res : HttpResponse) (h : c.room = none) (hf : env.fetchResult = Except.ok res)
    (hok : res.ok = false) :
    ∃ msg,
      (connectWithSignals cfg c env rid s1 s2).result = Except.error msg
      ∧ errorEvents (connectWithSignals cfg c env rid s1 s2).trace = [msg]
      ∧ (connectWithSignals cfg c env rid s1 s2).client.state = ChansState.error
      ∧ (connectWithSignals cfg c env rid s1 s2).client.room = none
      ∧ (connectWithSignals cfg c env rid s1 s2).createdRooms = []
      ∧ Event.stateChange ChansState.error ∈ (connectWithSignals cfg c env rid s1 s2).trace
      ∧ (∀ j d, res.json = Except.ok j → j.detail = some d → d ≠ "" → msg = d)
      ∧ ((bodyDetail res.json = none ∨ bodyDetail res.json = some "")
          → msg = failedToCreateMsg res.status) := by
  have hfe := resumeFetch_http_error (setState c ChansState.connecting).1 env rid res hf hok
  refine ⟨jsStringOr (bodyDetail res.json) (failedToCreateMsg res.status),
    ?_, ?_, ?_, ?_, ?_, ?_, ?_, ?_⟩
  · simp only [connectWithSignals, connectStart_none c h, hfe]
  · simp only [connectWithSignals, connectStart_none c h, hfe]
    rw [errorEvents_append, errorEvents_setState, errorEvents_connectCatch]
    rfl
  · simp only [connectWithSignals, connectStart_none c h, hfe]
    exact setState_state _ _
  · simp only [connectWithSignals, connectStart_none c h, hfe]
    rfl
  · simp only [connectWithSignals, connectStart_none c h, hfe]
  · simp only [connectWithSignals, connectStart_none c h, hfe]
    have hcs : ((setState c ChansState.connecting).1).state = ChansState.connecting :=
      setState_state _ _
    have h2 : (setState (setState c ChansState.connecting).1 ChansState.error).2
        = [Event.stateChange ChansState.error] := by
      refine setState_emits _ _ ?_
      rw [hcs]
      exact fun hh => ChansState.noConfusion hh
    show Event.stateChange ChansState.error ∈ (setState c ChansState.connecting).2
      ++ ((setState (setState c ChansState.connecting).1 ChansState.error).2
          ++ [Event.error (jsStringOr (bodyDetail res.json) (failedToCreateMsg res.status))])
    rw [h2]
    simp
  · intro j d hj hd hne
    simp [jsStringOr, bodyDetail, hj, hd, hne]
  · intro hcase
    rcases hcase with hc | hc <;> simp [jsStringOr, hc]

/-- Witness for the HTTP-failure behaviour at the concrete 401 response
with detail message. -/
theorem connect_http_failure_behavior_witness :
    (connectWithSignals cfgManual Client.initial envHttp401 1 [] []).result
        = Except.error "Invalid agent token"
    ∧ (connectWithSignals cfgManual Client.initial envHttp401 1 [] []).client.state
        = ChansState.error
    ∧ (connectWithSignals cfgManual Client.initial envHttp401 1 [] []).client.room = none
    ∧ (connectWithSignals cfgManual Client.initial envHttp401 1 [] []).createdRooms = [] := by
  obtain ⟨msg, h1, _, h3, h4, h5, _, h7, _⟩ :=
    connect_http_failure_behavior cfgManual Client.initial envHttp401 1 [] []
      ⟨false, 401, Except.ok ⟨some "Invalid agent token", none, none, none⟩⟩ rfl rfl rfl
  have hm : msg = "Invalid agent token" := h7 _ _ rfl rfl (by decide)
  rw [hm] at h1
  exact ⟨h1, h3, h4, h5⟩

/-- Cleanup preserves the state field. -/
theorem cleanup_state (c : Client) : (cleanup c).state = c.state := rfl

/-- Every room event handler either leaves the state unchanged or moves
it to a state other than connecting; no handler ever produces the
connecting state. -/
theorem handleSignal_state_cases (cfg : Config) (c : Client) (sig : RoomSignal) :
    ((handleSignal cfg c sig).1).state = c.state
    ∨ ((handleSignal cfg c sig).1).state ≠ ChansState.connecting := by
  obtain ⟨cs, cr, ca⟩ := c
  cases sig with
  | connected =>
      refine Or.inr ?_
      show ((setState ⟨cs, cr, ca⟩ ChansState.waiting).1).state ≠ ChansState.connecting
      rw [setState_state]
      decide
  | disconnected =>
      refine Or.inr ?_
      show (cleanup (setState ⟨cs, cr, ca⟩ ChansState.idle).1).state ≠ ChansState.connecting
      rw [cleanup_state, setState_state]
      decide
  | participantConnected identity metadata =>
      by_cases ha : jsIncludes identity "agent"
      · refine Or.inr ?_
        have hs : (handleSignal cfg ⟨cs, cr, ca⟩
              (RoomSignal.participantConnected identity metadata)).1
            = (setState ⟨cs, cr, ca⟩ ChansState.ready).1 := by
          simp [handleSignal, ha]
        rw [hs, setState_state]
        decide
      · refine Or.inl ?_
        have hs : (handleSignal cfg ⟨cs, cr, ca⟩
              (RoomSignal.participantConnected identity metadata)).1
            = ⟨cs, cr, ca⟩ := by
          simp [handleSignal, ha]
        rw [hs]
  | participantDisconnected identity =>
      by_cases ha : jsIncludes identity "agent"
      · refine Or.inr ?_
        have hs : (handleSignal cfg ⟨cs, cr, ca⟩
              (RoomSignal.participantDisconnected identity)).1
            = (setState ⟨cs, cr, ca⟩ ChansState.waiting).1 := by
          simp [handleSignal, ha]
        rw [hs, setState_state]
        decide
      · refine Or.inl ?_
        have hs : (handleSignal cfg ⟨cs, cr, ca⟩
              (RoomSignal.participantDisconnected identity)).1
            = ⟨cs, cr, ca⟩ := by
          simp [handleSignal, ha]
        rw [hs]
  | trackSubscribed isAudio identity =>
      by_cases ha : (isAudio && jsIncludes identity "agent") = true
      · refine Or.inr ?_
        by_cases hd : (!cfg.manualAudioHandling && cfg.hasDocument) = true
        · have hs : (handleSignal cfg ⟨cs, cr, ca⟩
                (RoomSignal.trackSubscribed isAudio identity)).1
              = { (setState ⟨cs, cr, ca⟩ ChansState.speaking).1 with audioElement := true } := by
            simp [handleSignal, ha, hd]
          rw [hs]
          show ((setState ⟨cs, cr, ca⟩ ChansState.speaking).1).state ≠ ChansState.connecting
          rw [setState_state]
          decide
        · have hs : (handleSignal cfg ⟨cs, cr, ca⟩
                (RoomSignal.trackSubscribed isAudio identity)).1
              = (setState ⟨cs, cr, ca⟩ ChansState.speaking).1 := by
            simp [handleSignal, ha, hd]
          rw [hs, setState_state]
          decide
      · refine Or.inl ?_
        have hs : (handleSignal cfg ⟨cs, cr, ca⟩
              (RoomSignal.trackSubscribed isAudio identity)).1
            = ⟨cs, cr, ca⟩ := by
          simp [handleSignal, ha]
        rw [hs]
  | trackUnsubscribed isAudio =>
      by_cases ha : isAudio = true
      · refine Or.inr ?_
        have hs : (handleSignal cfg ⟨cs, cr, ca⟩ (RoomSignal.trackUnsubscribed isAudio)).1
            = (setState (if ca then (⟨cs, cr, false⟩ : Client) else ⟨cs, cr, ca⟩)
                ChansState.ready).1 := by
          simp [handleSignal, ha]
        rw [hs, setState_state]
        decide
      · refine Or.inl ?_
        have hs : (handleSignal cfg ⟨cs, cr, ca⟩ (RoomSignal.trackUnsubscribed isAudio)).1
            = ⟨cs, cr, ca⟩ := by
          simp [handleSignal, ha]
        rw [hs]
  | transcriptionReceived segments participant =>
      rw [handleSignal_transcription]
      by_cases hA : isAgentParticipant participant
      · rw [if_pos hA]
        split
        · exact Or.inr (by simp)
        · split
          · exact Or.inr (by simp)
          · exact Or.inl rfl
      · rw [if_neg hA]
        split
        · exact Or.inr (by simp)
        · exact Or.inl rfl

/-- A client whose state is not connecting never reaches connecting
through a room event handler. -/
theorem handleSignal_not_connecting (cfg : Config) (c : Client) (sig : RoomSignal)
    (h : c.state ≠ ChansState.connecting) :
    ((handleSignal cfg c sig).1).state ≠ ChansState.connecting := by
  rcases handleSignal_state_cases cfg c sig with he | hne
  · rw [he]; exact h
  · exact hne

/-- A client whose state is not connecting never reaches connecting
through any list of delivered room signals. -/
theorem handleSignals_not_connecting (cfg : Config) (sigs : List RoomSignal) :
    ∀ c : Client, c.state ≠ ChansState.connecting →
      ((handleSignals cfg c sigs).1).state ≠ ChansState.connecting := by
  induction sigs with
  | nil => exact fun c h => h
  | cons sig rest ih =>
      intro c h
      show ((handleSignals cfg (handleSignal cfg c sig).1 rest).1).state ≠ ChansState.connecting
      exact ih _ (handleSignal_not_connecting cfg c sig h)

/-- The room-connected handler always leaves the client in the waiting
state. -/
theorem handleSignal_connected_state (cfg : Config) (c : Client) :
    ((handleSignal cfg c RoomSignal.connected).1).state = ChansState.waiting := by
  show ((setState c ChansState.waiting).1).state = ChansState.waiting
  exact setState_state _ _

/-- After any signal list containing the room-connected signal, the
state is not connecting. -/
theorem handleSignals_connected_mem (cfg : Config) (sigs : List RoomSignal) :
    ∀ c : Client, RoomSignal.connected ∈ sigs →
      ((handleSignals cfg c sigs).1).state ≠ ChansState.connecting := by
  induction sigs with
  | nil => intro c h; cases h
  | cons sig rest ih =>
      intro c h
      cases h with
      | head =>
          show ((handleSignals cfg (handleSignal cfg c RoomSignal.connected).1 rest).1).state
            ≠ ChansState.connecting
          exact handleSignals_not_connecting cfg rest _
            (by rw [handleSignal_connected_state]; decide)
      | tail _ hmem =>
          show ((handleSignals cfg (handleSignal cfg c sig).1 rest).1).state
            ≠ ChansState.connecting
          exact ih _ hmem

/-- C9 (amended): whenever connect resolves successfully and the
injected room fired its room-connected event at some point before the
call resolved, the state at the moment of return is not connecting; the
counterexample shows that a room which resolves its connect promise
without firing room-connected leaves the state as connecting at
return. -/
theorem connect_resolved_after_room_connected_not_connecting
    (cfg : Config) (c : Client) (env : ConnectEnv) (rid : Nat) (s1 s2 : List RoomSignal)
    (hmem : RoomSignal.connected ∈ s1 ∨ RoomSignal.connected ∈ s2)
    (hok : (connectWithSignals cfg c env rid s1 s2).result = Except.ok ()) :
    (connectWithSignals cfg c env rid s1 s2).client.state ≠ ChansState.connecting := by
  cases hcr : c.room with
  | some r =>
      exfalso
      have hres : (connectWithSignals cfg c env rid s1 s2).result
          = Except.error alreadyConnectedMsg := by
        simp [connectWithSignals, connectStart, hcr]
      rw [hres] at hok
      exact Except.noConfusion hok
  | none =>
      rcases resumeFetch_cases (setState c ChansState.connecting).1 env rid with
        ⟨msg, hf⟩ | ⟨sid, hf⟩
      · exfalso
        have hres : (connectWithSignals cfg c env rid s1 s2).result = Except.error msg := by
          simp only [connectWithSignals, connectStart_none c hcr, hf]
        rw [hres] at hok
        exact Except.noConfusion hok
      · rcases resumeRoomConnect_cases
            (handleSignals cfg
              (⟨(setState c ChansState.connecting).1.state, some rid,
                (setState c ChansState.connecting).1.audioElement⟩ : Client) s1).1
            env with ⟨msg, hr⟩ | hr
        · exfalso
          have hres : (connectWithSignals cfg c env rid s1 s2).result = Except.error msg := by
            simp only [connectWithSignals, connectStart_none c hcr, hf, hr]
          rw [hres] at hok
          exact Except.noConfusion hok
        · rcases resumeMic_cases
              (handleSignals cfg
                (handleSignals cfg
                  (⟨(setState c ChansState.connecting).1.state, some rid,
                    (setState c ChansState.connecting).1.audioElement⟩ : Client) s1).1 s2).1
              env with ⟨msg, hm⟩ | hm
          · exfalso
            have hres : (connectWithSignals cfg c env rid s1 s2).result = Except.error msg := by
              simp only [connectWithSignals, connectStart_none c hcr, hf, hr, hm]
            rw [hres] at hok
            exact Except.noConfusion hok
          · have hcl : (connectWithSignals cfg c env rid s1 s2).client
                = (handleSignals cfg
                    (handleSignals cfg
                      (⟨(setState c ChansState.connecting).1.state, some rid,
                        (setState c ChansState.connecting).1.audioElement⟩ : Client) s1).1
                    s2).1 := by
              simp only [connectWithSignals, connectStart_none c hcr, hf, hr, hm]
            rw [hcl]
            rcases hmem with hm1 | hm2
            · exact handleSignals_not_connecting cfg s2 _
                (handleSignals_connected_mem cfg s1 _ hm1)
            · exact handleSignals_connected_mem cfg s2 _ hm2

/-- Witness for the amended return-state property: with the
room-connected signal delivered during the transport connect await, the
successful call does not return in the connecting state. -/
theorem connect_resolved_after_room_connected_witness :
    (connectWithSignals cfgManual Client.initial envAllOk 4
        [RoomSignal.connected] []).client.state ≠ ChansState.connecting :=
  connect_resolved_after_room_connected_not_connecting cfgManual Client.initial envAllOk 4
    [RoomSignal.connected] [] (Or.inl (List.mem_singleton.mpr rfl)) rfl

/-- C7: a transcription from a non-agent participant emits transcript
with the joined segment text and never response, and when final and
non-empty ends in the processing state (emitting userTurnComplete); a
transcription from an agent participant emits response and never
transcript or userTurnComplete, moves processing or ready to speaking,
and when final and non-empty ends in the ready state. -/
theorem transcription_attribution_and_transitions
    (cfg : Config) (c : Client) (segments : List TranscriptionSegment)
    (participant : Option String) :
    (isAgentParticipant participant = false →
      (handleSignal cfg c (RoomSignal.transcriptionReceived segments participant)).2
          = [Event.transcript (String.intercalate " " (segments.map (fun s => s.text)))]
            ++ (if (segments.any (fun s => s.final))
                  && (jsTrim (String.intercalate " " (segments.map (fun s => s.text))) != "") then
                  (if c.state = ChansState.processing then []
                   else [Event.stateChange ChansState.processing])
                    ++ [Event.userTurnComplete
                        (String.intercalate " " (segments.map (fun s => s.text)))]
                else [])
        ∧ (∀ t, Event.response t
            ∉ (handleSignal cfg c (RoomSignal.transcriptionReceived segments participant)).2)
        ∧ (((segments.any (fun s => s.final))
              && (jsTrim (String.intercalate " " (segments.map (fun s => s.text))) != "")) = true →
            ((handleSignal cfg c
                (RoomSignal.transcriptionReceived segments participant)).1).state
              = ChansState.processing))
    ∧ (isAgentParticipant participant = true →
      (handleSignal cfg c (RoomSignal.transcriptionReceived segments participant)).2
          = (if c.state = ChansState.processing ∨ c.state = ChansState.ready then
               [Event.stateChange ChansState.speaking] else [])
            ++ [Event.response (String.intercalate " " (segments.map (fun s => s.text)))]
            ++ (if (segments.any (fun s => s.final))
                  && (jsTrim (String.intercalate " " (segments.map (fun s => s.text))) != "") then
                  [Event.stateChange ChansState.ready] else [])
        ∧ (∀ t, Event.transcript t
            ∉ (handleSignal cfg c (RoomSignal.transcriptionReceived segments participant)).2)
        ∧ (∀ t, Event.userTurnComplete t
            ∉ (handleSignal cfg c (RoomSignal.transcriptionReceived segments participant)).2)
        ∧ ((c.state = ChansState.processing ∨ c.state = ChansState.ready) →
            ((segments.any (fun s => s.final))
              && (jsTrim (String.intercalate " " (segments.map (fun s => s.text))) != "")) = false →
            ((handleSignal cfg c
                (RoomSignal.transcriptionReceived segments participant)).1).state
              = ChansState.speaking)
        ∧ (((segments.any (fun s => s.final))
              && (jsTrim (String.intercalate " " (segments.map (fun s => s.text))) != "")) = true →
            ((handleSignal cfg c
                (RoomSignal.transcriptionReceived segments participant)).1).state
              = ChansState.ready)) := by
  rw [handleSignal_transcription]
  constructor
  · intro hA
    have hA2 : ¬isAgentParticipant participant = true := by
      rw [hA]; exact Bool.false_ne_true
    rw [if_neg hA2]
    refine ⟨rfl, ?_, ?_⟩
    · intro t
      split <;> (try split) <;> simp
    · intro hFin
      rw [if_pos hFin]
  · intro hA
    rw [if_pos hA]
    refine ⟨rfl, ?_, ?_, ?_, ?_⟩
    · intro t
      split <;> (try split) <;> simp
    · intro t
      split <;> (try split) <;> simp
    · intro hPR hFinF
      have hFin2 : ¬((segments.any (fun s => s.final))
          && (jsTrim (String.intercalate " " (segments.map (fun s => s.text))) != "")) = true := by
        rw [hFinF]; exact Bool.false_ne_true
      rw [if_neg hFin2, if_pos hPR]
    · intro hFin
      rw [if_pos hFin]

/-- Witness for the transcription attribution: a final non-empty agent
transcription received in the ready state ends in the ready state. -/
theorem transcription_attribution_witness :
    ((handleSignal cfgManual ⟨ChansState.ready, some 0, false⟩
        (RoomSignal.transcriptionReceived [⟨"hi", true⟩] (some "agent-7"))).1).state
      = ChansState.ready := by
  have H := transcription_attribution_and_transitions cfgManual
    ⟨ChansState.ready, some 0, false⟩ [⟨"hi", true⟩] (some "agent-7")
  exact (H.2 (by decide)).2.2.2.2 (by decide)

/-- C10: a transcription delivered with an absent participant is routed
as a non-agent transcription: it emits transcript and never response,
ends in the processing state exactly when the segment set is final with
non-empty joined text, and then also emits userTurnComplete. -/
theorem transcription_without_participant_routed_as_user
    (cfg : Config) (c : Client) (segments : List TranscriptionSegment) :
    (handleSignal cfg c (RoomSignal.transcriptionReceived segments none)).2
        = [Event.transcript (String.intercalate " " (segments.map (fun s => s.text)))]
          ++ (if (segments.any (fun s => s.final))
                && (jsTrim (String.intercalate " " (segments.map (fun s => s.text))) != "") then
                (if c.state = ChansState.processing then []
                 else [Event.stateChange ChansState.processing])
                  ++ [Event.userTurnComplete
                      (String.intercalate " " (segments.map (fun s => s.text)))]
              else [])
    ∧ (∀ t, Event.response t
        ∉ (handleSignal cfg c (RoomSignal.transcriptionReceived segments none)).2)
    ∧ ((handleSignal cfg c (RoomSignal.transcriptionReceived segments none)).1).state
        = (if (segments.any (fun s => s.final))
              && (jsTrim (String.intercalate " " (segments.map (fun s => s.text))) != "") then
             ChansState.processing
           else c.state)
    ∧ (((segments.any (fun s => s.final))
          && (jsTrim (String.intercalate " " (segments.map (fun s => s.text))) != "")) = true →
        Event.userTurnComplete (String.intercalate " " (segments.map (fun s => s.text)))
          ∈ (handleSignal cfg c (RoomSignal.transcriptionReceived segments none)).2) := by
  rw [handleSignal_transcription]
  have hA2 : ¬isAgentParticipant (none : Option String) = true := by
    exact Bool.false_ne_true
  rw [if_neg hA2]
  refine ⟨rfl, ?_, rfl, ?_⟩
  · intro t
    split <;> (try split) <;> simp
  · intro hFin
    rw [if_pos hFin]
    split <;> simp

/-- Witness for the absent-participant routing: a final non-empty
transcription with no participant moves a ready client to processing. -/
theorem transcription_without_participant_witness :
    ((handleSignal cfgManual ⟨ChansState.ready, some 1, false⟩
        (RoomSignal.transcriptionReceived [⟨"go", true⟩] none)).1).state
      = ChansState.processing := by
  have H := transcription_without_participant_routed_as_user cfgManual
    ⟨ChansState.ready, some 1, false⟩ [⟨"go", true⟩]
  rw [H.2.2.1]
  decide

/-- Invariants of one emit iteration pass: the newly invoked callbacks
form a tail extension of the accumulator, no callback is invoked after
an earlier-invoked callback of the same pass unsubscribed it, every
invoked callback was pending and not yet deleted, and deletions
accumulate into the final removed set. -/
theorem forEachGo_spec (beh : Nat → List Nat) :
    ∀ (pending removed invoked : List Nat),
      ∃ tail,
        (forEachGo beh removed invoked pending).1 = invoked.reverse ++ tail
        ∧ List.Pairwise (fun a b => b ∉ beh a) tail
        ∧ (∀ x ∈ tail, x ∈ pending ∧ x ∉ removed)
        ∧ (∀ x ∈ removed, x ∈ (forEachGo beh removed invoked pending).2)
        ∧ (∀ x ∈ tail, ∀ y ∈ beh x, y ∈ (forEachGo beh removed invoked pending).2) := by
  intro pending
  induction pending with
  | nil =>
      intro removed invoked
      refine ⟨[], by simp [forEachGo], List.Pairwise.nil, by simp, ?_, by simp⟩
      intro x hx
      simpa [forEachGo] using hx
  | cons h rest ih =>
      intro removed invoked
      by_cases hmem : h ∈ removed
      · obtain ⟨tail, h1, h2, h3, h4, h5⟩ := ih removed invoked
        refine ⟨tail, ?_, h2, ?_, ?_, ?_⟩
        · simp only [forEachGo, if_pos hmem]
          exact h1
        · intro x hx
          obtain ⟨hp, hr⟩ := h3 x hx
          exact ⟨List.mem_cons_of_mem _ hp, hr⟩
        · intro x hx
          simp only [forEachGo, if_pos hmem]
          exact h4 x hx
        · intro x hx y hy
          simp only [forEachGo, if_pos hmem]
          exact h5 x hx y hy
      · obtain ⟨tail, h1, h2, h3, h4, h5⟩ := ih (beh h ++ removed) (h :: invoked)
        refine ⟨h :: tail, ?_, ?_, ?_, ?_, ?_⟩
        · simp only [forEachGo, if_neg hmem]
          rw [h1]
          simp
        · refine List.Pairwise.cons ?_ h2
          intro b hb hbh
          exact (h3 b hb).2 (List.mem_append.mpr (Or.inl hbh))
        · intro x hx
          rcases List.mem_cons.mp hx with rfl | hx2
          · exact ⟨List.mem_cons_self _ _, hmem⟩
          · obtain ⟨hp, hr⟩ := h3 x hx2
            refine ⟨List.mem_cons_of_mem _ hp, ?_⟩
            intro hrr
            exact hr (List.mem_append.mpr (Or.inr hrr))
        · intro x hxr
          simp only [forEachGo, if_neg hmem]
          exact h4 x (List.mem_append.mpr (Or.inr hxr))
        · intro x hx y hy
          simp only [forEachGo, if_neg hmem]
          rcases List.mem_cons.mp hx with rfl | hx2
          · exact h4 y (List.mem_append.mpr (Or.inl hy))
          · exact h5 x hx2 y hy

/-- C8: over every listener set and every unsubscription behaviour of
the callbacks, a dispatch pass never invokes a callback after an
earlier-invoked callback of the same pass unsubscribed it, invokes only
registered callbacks, leaves every callback unsubscribed during the
pass outside the surviving listener set (so it receives zero events in
every later pass), and the unsubscribe deletion is idempotent, so
invoking a token twice is harmless. -/
theorem unsubscribed_callback_gets_no_further_events
    (reg : List Nat) (beh : Nat → List Nat) (x : Nat) :
    List.Pairwise (fun a b => b ∉ beh a) (emitRun reg beh).1
    ∧ (∀ y ∈ (emitRun reg beh).1, y ∈ reg)
    ∧ (∀ cb ∈ (emitRun reg beh).1, ∀ y ∈ beh cb, y ∉ (emitRun reg beh).2)
    ∧ offListener (offListener reg x) x = offListener reg x := by
  obtain ⟨tail, h1, h2, h3, _h4, h5⟩ := forEachGo_spec beh reg [] []
  have hfst : (emitRun reg beh).1 = tail := by
    show (forEachGo beh [] [] reg).1 = tail
    rw [h1]
    rfl
  refine ⟨?_, ?_, ?_, ?_⟩
  · rw [hfst]; exact h2
  · intro y hy
    rw [hfst] at hy
    exact (h3 y hy).1
  · intro cb hc y hy
    rw [hfst] at hc
    have hyR : y ∈ (forEachGo beh [] [] reg).2 := h5 cb hc y hy
    intro hmem2
    have hfil : y ∈ reg.filter (fun z => decide (z ∉ (forEachGo beh [] [] reg).2)) := hmem2
    rw [List.mem_filter] at hfil
    exact absurd hyR (of_decide_eq_true hfil.2)
  · simp [offListener, List.filter_filter]

/-- Witness for the unsubscription guarantees: with callback 1
unsubscribing callback 3 during the pass, callback 3 is no longer in
the surviving listener set. -/
theorem unsubscribed_callback_witness :
    (3 : Nat) ∉ (emitRun [1, 2, 3] (fun n => if n = 1 then [3] else [])).2 := by
  have H := unsubscribed_callback_gets_no_further_events [1, 2, 3]
    (fun n => if n = 1 then [3] else []) 0
  exact H.2.2.1 1 (by decide) 3 (by decide)

end ChansSdk
